import Mathlib

/-!
Shallow embedding of the libkeepass2pp repository pieces under scrutiny:

* the build-time option handling of `configure.ac` (buffer size, `NDEBUG`
  and `VERBOSE_XML_ERRORS` conditionals);
* the zlib wrapper classes `Zlib::Inflater` / `Zlib::Deflater` from
  `include/libkeepass2pp/wrappers.h` (custom allocator callbacks and the
  `oneShot` compression entry points);
* the OpenSSL wrappers `OSSL::rand`, `OSSL::Digest`, `OSSL::EvpCipher`;
* the libxml2 wrapper `XML::Exception::throwLastError`.

External primitives (OpenSSL, zlib, libxml2) are modelled as oracles whose
behavior follows their documented contracts; repository code whose body is
not under `src/` is modelled from the specification and marked as such in
its doc comment.
-/

namespace Configure

/-- Shell integer recognition performed by configure.ac's
`if [ "$BUFFER_SIZE" -eq "$BUFFER_SIZE" ] 2>/dev/null`: the test command
succeeds exactly on an optional sign followed by decimal digits. -/
def isShellInt (s : String) : Bool :=
  match s.toList with
  | [] => false
  | c :: rest =>
    if c = '-' ∨ c = '+' then !rest.isEmpty && rest.all Char.isDigit
    else (c :: rest).all Char.isDigit

/-- Value of a list of decimal digit characters. -/
def digitsVal (l : List Char) : Nat :=
  l.foldl (fun acc c => 10 * acc + (c.toNat - 48)) 0

/-- Numeric value of a shell integer literal. -/
def shellIntVal (s : String) : Int :=
  match s.toList with
  | '-' :: rest => -(digitsVal rest : Int)
  | '+' :: rest => (digitsVal rest : Int)
  | l => (digitsVal l : Int)

/-- Shell integer parse: the value when the test command accepts the string. -/
def shellInt? (s : String) : Option Int :=
  if isShellInt s then some (shellIntVal s) else none

/-- Processing of the `--with-buffer-size` option in configure.ac: `withval`
is `none` when the option is absent (then `BUFFER_SIZE=4`); a non-integer
value, a value `-le 0` and a value `-gt 100` abort configure through
`AC_MSG_ERROR`; otherwise `AC_DEFINE_UNQUOTED` sets `PIPELINE_BUFFER_SIZE`
to the value. The result is the error message or the defined value. -/
def configureBufferSize (withval : Option String) : Except String Int :=
  match withval with
  | none => Except.ok 4
  | some s =>
    match shellInt? s with
    | none => Except.error "--with-buffer-size argument must be an integer."
    | some v =>
      if v ≤ 0 then
        Except.error "--with-buffer-size argument must equal at least 1."
      else if v > 100 then
        Except.error "--with-buffer-size argument must equal at most 100."
      else Except.ok v

/-- Conditional from configure.ac:
`AS_IF([test "x$enable_assert" != "xyes"], [AC_DEFINE([NDEBUG], ...)])`.
`flag` is the shell variable `enable_assert`, `none` when `--enable-assert`
was not given and `some "yes"` when it was. -/
def ndebugDefined (flag : Option String) : Bool :=
  "x" ++ flag.getD "" != "xyes"

/-- Conditional from configure.ac:
`AS_IF([test "x$enable_verbose_xml_errors" != "xyes"],
[AC_DEFINE([VERBOSE_XML_ERRORS], ...)])`. `flag` is the shell variable
`enable_verbose_xml_errors`, `none` when `--enable-verbose-xml-errors` was
not given and `some "yes"` when it was. -/
def verboseXmlErrorsDefined (flag : Option String) : Bool :=
  "x" ++ flag.getD "" != "xyes"

end Configure

namespace Zlib

/-- MAX_WBITS from zlib.h. -/
def MAX_WBITS : Nat := 15

/-- Container formats a deflate stream can be wrapped in. -/
inductive Format
  | zlibFmt
  | gzipFmt
  | rawFmt
deriving DecidableEq

/-- Modelled from the spec: the container format `deflateInit2` selects from
its windowBits argument (zlib manual): 8..15 gives the zlib wrapper,
windowBits+16 (24..31) the gzip wrapper, -15..-8 a raw deflate stream. -/
def deflateFormat (windowBits : Int) : Option Format :=
  if 8 ≤ windowBits ∧ windowBits ≤ 15 then some Format.zlibFmt
  else if 24 ≤ windowBits ∧ windowBits ≤ 31 then some Format.gzipFmt
  else if -15 ≤ windowBits ∧ windowBits ≤ -8 then some Format.rawFmt
  else none

/-- Modelled from the spec: the containers `inflateInit2` accepts for a given
windowBits argument (zlib manual): 8..15 decodes the zlib wrapper only,
24..31 (windowBits+16) the gzip wrapper only, 40..47 (windowBits+32)
auto-detects zlib or gzip, -15..-8 a raw stream. -/
def inflateAccepts (windowBits : Int) (fmt : Format) : Bool :=
  if 8 ≤ windowBits ∧ windowBits ≤ 15 then fmt = Format.zlibFmt
  else if 24 ≤ windowBits ∧ windowBits ≤ 31 then fmt = Format.gzipFmt
  else if 40 ≤ windowBits ∧ windowBits ≤ 47 then
    fmt = Format.zlibFmt ∨ fmt = Format.gzipFmt
  else if -15 ≤ windowBits ∧ windowBits ≤ -8 then fmt = Format.rawFmt
  else false

/-- Modelled from the spec: a compressed byte stream. Compression is
lossless, so the model keeps the original bytes and records the container
format selected at compression time. -/
structure Compressed where
  fmt : Format
  payload : List Nat
deriving DecidableEq

/-- Modelled from the spec: `Zlib::Deflater::oneShot` (body not under src/)
compresses `input` into the container chosen by `windowBits`; on an invalid
windowBits the constructor throws (`none`). -/
def Deflater.oneShot (input : List Nat) (windowBits : Int) : Option Compressed :=
  (deflateFormat windowBits).map fun f => { fmt := f, payload := input }

/-- Modelled from the spec: `Zlib::Inflater::oneShot` (body not under src/)
decompresses `c` when `windowBits` accepts the container `c` was produced
in; otherwise zlib reports a data error and oneShot throws (`none`). -/
def Inflater.oneShot (c : Compressed) (windowBits : Int) : Option (List Nat) :=
  if inflateAccepts windowBits c.fmt then some c.payload else none

/-- Default windowBits argument of `Zlib::Deflater::oneShot` as declared in
wrappers.h: `MAX_WBITS`. -/
def Deflater.oneShotDefaultWBits : Int := (MAX_WBITS : Nat)

/-- Default windowBits argument of `Zlib::Inflater::oneShot` as declared in
wrappers.h: `MAX_WBITS | 16`. -/
def Inflater.oneShotDefaultWBits : Int := (Nat.lor MAX_WBITS 16 : Nat)

/-- Size of `std::size_t` on the target platform, in bytes. -/
def sizeofSizeT : Nat := 8

/-- Bookkeeping of one successful call to the `allocFunc` member of
`Zlib::Inflater` / `Zlib::Deflater`: `SafeMemoryManager::allocate` returned
the region `[regionBase, regionBase + regionLen)`; the callback stored
`storedWord` in the leading `std::size_t` of the region and handed `ret` to
zlib. -/
structure AllocResult where
  regionBase : Nat
  regionLen : Nat
  storedWord : Nat
  ret : Nat
deriving DecidableEq

/-- allocFunc of `Zlib::Inflater` / `Zlib::Deflater` (wrappers.h): requests
`items*size + sizeof(std::size_t)` bytes (`items*size` computed in 32-bit
`uInt` arithmetic), writes `size` into the leading word and returns the
address one `std::size_t` past the region base; when
`SafeMemoryManager::allocate` throws `std::bad_alloc` (`mgrBase = none`)
the catch clause returns the null pointer (`none`). `SafeMemoryManager` is
not under src/; per the spec it fails only with an out-of-memory error, so
no other exception reaches the callback. -/
def allocFunc (mgrBase : Option Nat) (items size : Nat) : Option AllocResult :=
  match mgrBase with
  | none => none
  | some base =>
    some { regionBase := base
           regionLen := items * size % 2 ^ 32 + sizeofSizeT
           storedWord := size
           ret := base + sizeofSizeT }

/-- freeFunc of `Zlib::Inflater` / `Zlib::Deflater` (wrappers.h):
reinterprets the address zlib passes back as a `std::size_t` pointer and
calls `SafeMemoryManager::deallocate(address, *address)`; the result is the
(base, length) pair handed to deallocate. `wordAtAddress` is whatever
value the memory at that address holds when zlib frees it. -/
def freeFunc (address : Nat) (wordAtAddress : Nat) : Nat × Nat :=
  (address, wordAtAddress)

end Zlib

namespace OSSL

/-- Oracle for one call to the OpenSSL `RAND_bytes` primitive: `ret` is its
return value, `byte` the random stream it writes into the destination when
it succeeds (per its contract it fills exactly the requested bytes). -/
structure RandPrim where
  ret : Int
  byte : Nat → Nat

/-- OSSL::rand from wrappers.h: calls `RAND_bytes(data, size)` and throws
`OSSL::exception` exactly when the result differs from 1. `dest` is the
destination buffer; on success the result is the updated buffer. -/
def rand (p : RandPrim) (dest : List Nat) (size : Nat) : Except Unit (List Nat) :=
  if p.ret = 1 then Except.ok ((List.range size).map p.byte ++ dest.drop size)
  else Except.error ()

/-- Lifecycle state of an `OSSL::Digest` wrapper: default-constructed (null
context), initialized and accepting updates, or finalized. -/
inductive DigestState
  | invalidCtx
  | ready
  | finalized
deriving DecidableEq

/-- Modelled from the spec: an `OSSL::Digest` wrapper (bodies of
init/update/final are not under src/). `mdSize` is `EVP_MD_CTX_size` of the
wrapped context. -/
structure Digest where
  mdSize : Nat
  state : DigestState
deriving DecidableEq

/-- Result of one call to an OpenSSL digest primitive: `ok` is the 1-return,
`written` the byte count `EVP_DigestFinal_ex` reports, which OpenSSL bounds
by the digest size. -/
structure DigestPrim where
  ok : Bool
  written : Nat
deriving DecidableEq

/-- Modelled from the spec: `Digest::init` re-initializes the context via
`EVP_DigestInit_ex` and throws `OSSL::exception` exactly when the primitive
fails; afterwards updates are permitted again. -/
def Digest.init (d : Digest) (p : DigestPrim) : Except Unit Digest :=
  if p.ok then Except.ok { d with state := DigestState.ready }
  else Except.error ()

/-- Modelled from the spec: `Digest::update` forwards to `EVP_DigestUpdate`
and throws exactly when it fails; after `final()` no further update is
permitted until the digest is reinitialized, so updating a non-ready
context is an error. -/
def Digest.update (d : Digest) (p : DigestPrim) : Except Unit Digest :=
  match d.state with
  | DigestState.ready => if p.ok then Except.ok d else Except.error ()
  | _ => Except.error ()

/-- Modelled from the spec: `Digest::final` forwards to
`EVP_DigestFinal_ex`, throws exactly when the primitive fails, returns the
number of bytes written into the caller's buffer and leaves the digest
finalized. -/
def Digest.final (d : Digest) (p : DigestPrim) : Except Unit (Nat × Digest) :=
  match d.state with
  | DigestState.ready =>
    if p.ok then
      Except.ok (p.written, { d with state := DigestState.finalized })
    else Except.error ()
  | _ => Except.error ()

/-- Modelled from the spec: an `OSSL::EvpCipher` context for a block cipher
with PKCS padding. `pending` counts the bytes EVP buffers internally
between update calls; `encrypting` is the direction flag. -/
structure EvpCipher where
  blockSize : Nat
  encrypting : Bool
  pending : Nat
deriving DecidableEq

/-- Context well-formedness maintained by `EVP_CipherUpdate`: the block size
is positive; an encrypting context buffers strictly less than one block; a
decrypting context with padding holds back up to one full block. -/
def EvpCipher.WF (c : EvpCipher) : Prop :=
  0 < c.blockSize ∧
    (if c.encrypting then c.pending < c.blockSize else c.pending ≤ c.blockSize)

/-- Modelled from the spec: `EvpCipher::update` / `EVP_CipherUpdate`
buffering for a block cipher with padding. Encryption emits every complete
block and keeps the remainder; decryption additionally holds back the last
complete block for padding removal. The result is the byte count written
to the output buffer and the updated context. -/
def EvpCipher.update (c : EvpCipher) (inl : Nat) : Nat × EvpCipher :=
  let total := c.pending + inl
  if c.encrypting then
    (total - total % c.blockSize, { c with pending := total % c.blockSize })
  else if total = 0 then (0, c)
  else
    let keep := (total - 1) % c.blockSize + 1
    (total - keep, { c with pending := keep })

/-- Modelled from the spec: `EvpCipher::final` / `EVP_CipherFinal_ex` with
padding: encryption emits the final padded block (`blockSize` bytes);
decryption strips `padLen` (between 1 and `blockSize`) pad bytes from the
held-back final block. The result is the byte count written. -/
def EvpCipher.final (c : EvpCipher) (padLen : Nat) : Nat :=
  if c.encrypting then c.blockSize else c.pending - padLen

/-- Explicit bool conversion of a wrapper object: valid exactly when the
wrapped context pointer is non-null. -/
def ctxToBool (ctx : Option Nat) : Bool := ctx.isSome

/-- Heap of wrapper objects for the ownership model: `objs` maps an object
index to the OpenSSL context identifier it owns (`none` is a null context),
`used` is the number of object slots created so far, `next` the next fresh
context identifier. -/
structure OwnState where
  objs : Nat → Option Nat
  used : Nat
  next : Nat

/-- Operations the `OSSL::Digest` and `OSSL::EvpCipher` wrappers perform on
their contexts, as written in wrappers.h: default construction (null
context), construction of a fresh valid context, move construction (source
context stolen, source nulled), the Digest deep-copy constructor
(`EVP_MD_CTX_copy_ex` into a fresh context), move assignment through the
by-value-and-swap operator, Digest deep-copy assignment, destruction.
`EvpCipher` copying is deleted, so no copy operation exists for it. -/
inductive OwnOp
  | defaultCtor
  | validCtor
  | moveCtor (src : Nat)
  | deepCopyCtor (src : Nat)
  | moveAssign (dst src : Nat)
  | deepCopyAssign (dst src : Nat)
  | destroy (i : Nat)

/-- One ownership operation on the wrapper heap. New objects are placed at
index `used`. -/
def ownStep (s : OwnState) (op : OwnOp) : OwnState :=
  match op with
  | OwnOp.defaultCtor =>
    { s with objs := fun k => if k = s.used then none else s.objs k
             used := s.used + 1 }
  | OwnOp.validCtor =>
    { objs := fun k => if k = s.used then some s.next else s.objs k
      used := s.used + 1
      next := s.next + 1 }
  | OwnOp.moveCtor src =>
    { s with objs := fun k =>
               if k = src then none
               else if k = s.used then s.objs src
               else s.objs k
             used := s.used + 1 }
  | OwnOp.deepCopyCtor src =>
    { objs := fun k =>
        if k = s.used then (if (s.objs src).isSome then some s.next else none)
        else s.objs k
      used := s.used + 1
      next := s.next + 1 }
  | OwnOp.moveAssign dst src =>
    if dst = src then s
    else
      { s with objs := fun k =>
                 if k = src then none
                 else if k = dst then s.objs src
                 else s.objs k }
  | OwnOp.deepCopyAssign dst src =>
    { s with objs := fun k =>
               if k = dst then (if (s.objs src).isSome then some s.next else none)
               else s.objs k
             next := s.next + 1 }
  | OwnOp.destroy i =>
    { s with objs := fun k => if k = i then none else s.objs k }

/-- Run of a list of ownership operations. -/
def ownRun (s : OwnState) (ops : List OwnOp) : OwnState :=
  ops.foldl ownStep s

/-- Unique ownership of a context map: no two object slots hold the same
context, and every held context identifier is below the fresh counter `n`. -/
def objsInv (f : Nat → Option Nat) (n : Nat) : Prop :=
  (∀ i j c, f i = some c → f j = some c → i = j) ∧
    (∀ i c, f i = some c → c < n)

/-- Unique ownership invariant of the wrapper heap: no two object slots hold
the same context, and every held context identifier is below the fresh
counter. -/
def OwnInv (s : OwnState) : Prop :=
  objsInv s.objs s.next

end OSSL

namespace XML

/-- Error code `XML_ERR_NO_MEMORY` of libxml2's `xmlParserErrors`
enumeration. -/
def XML_ERR_NO_MEMORY : Nat := 2

/-- Modelled from the spec: the part of a libxml2 `xmlError` the wrapper
copies. A default-constructed `XML::Error` is all zeroes. -/
structure Error where
  code : Nat
  message : String
deriving DecidableEq

/-- Default-constructed (memset to zero) `XML::Error`. -/
def Error.empty : Error := { code := 0, message := "" }

/-- Exception that leaves `XML::Exception::throwLastError` (the function
never returns normally). -/
inductive Thrown
  | badAlloc
  | xmlException (e : Error)
deriving DecidableEq

/-- Modelled from the spec: `XML::Exception::throwLastError` (body not under
src/, behavior fixed by its wrappers.h documentation): when
`xmlGetLastError` returns null, an `XML::Exception` holding an empty Error
is thrown; when the last error has code `XML_ERR_NO_MEMORY`, a
`std::bad_alloc` is thrown instead to unify allocation failures; otherwise
an `XML::Exception` carrying a copy of the last error is thrown. -/
def Exception.throwLastError (lastError : Option Error) : Thrown :=
  match lastError with
  | none => Thrown.xmlException Error.empty
  | some e =>
    if e.code = XML_ERR_NO_MEMORY then Thrown.badAlloc
    else Thrown.xmlException e

end XML

/-! Theorems. -/

namespace Configure

/-- C3: the build-time configuration accepts a pipeline buffer size exactly
when it is an integer between 1 and 100 inclusive and then defines
`PIPELINE_BUFFER_SIZE` to that value; it defaults to 4 when the
`--with-buffer-size` option is absent, and rejects with a configuration
error every non-integer value, every value below 1 and every value above
100. -/
theorem configure_buffer_size_spec (s : String) (v : Int) :
    configureBufferSize none = Except.ok 4 ∧
    (shellInt? s = some v → 1 ≤ v → v ≤ 100 →
      configureBufferSize (some s) = Except.ok v) ∧
    (shellInt? s = none →
      configureBufferSize (some s) =
        Except.error "--with-buffer-size argument must be an integer.") ∧
    (shellInt? s = some v → v < 1 →
      configureBufferSize (some s) =
        Except.error "--with-buffer-size argument must equal at least 1.") ∧
    (shellInt? s = some v → 100 < v →
      configureBufferSize (some s) =
        Except.error "--with-buffer-size argument must equal at most 100.") ∧
    (configureBufferSize (some s) = Except.ok v →
      shellInt? s = some v ∧ 1 ≤ v ∧ v ≤ 100) := by
  refine ⟨rfl, ?_, ?_, ?_, ?_, ?_⟩
  · intro hparse h1 h100
    simp only [configureBufferSize, hparse]
    rw [if_neg (by omega), if_neg (by omega)]
  · intro hparse
    simp only [configureBufferSize, hparse]
  · intro hparse hlow
    simp only [configureBufferSize, hparse]
    rw [if_pos (by omega)]
  · intro hparse hhigh
    simp only [configureBufferSize, hparse]
    rw [if_neg (by omega), if_pos (by omega)]
  · intro hok
    cases hparse : shellInt? s with
    | none => simp [configureBufferSize, hparse] at hok
    | some w =>
      simp only [configureBufferSize, hparse] at hok
      split_ifs at hok with h0 h100
      have hw : w = v := by simpa using hok
      subst hw
      exact ⟨rfl, by omega, by omega⟩

/-- Witness for C3: the concrete option value "7" is accepted as 7, and the
absent option yields the default 4. -/
theorem configure_buffer_size_spec_witness :
    configureBufferSize (some "7") = Except.ok 7 ∧
    configureBufferSize none = Except.ok 4 :=
  ⟨(configure_buffer_size_spec "7" 7).2.1 (by decide) (by decide) (by decide),
   (configure_buffer_size_spec "7" 7).1⟩

/-- C4: evaluation of the configure.ac conditionals. The NDEBUG half of the
claim matches the code: NDEBUG is defined exactly when `--enable-assert` is
not given. The verbose half does not: `VERBOSE_XML_ERRORS` (installed with
the KEEPASS2PP prefix used by `XML::toString`) is defined exactly when
`--enable-verbose-xml-errors` is NOT given — the opposite of the claim and
of the option's own help text, because the `AS_IF` condition tests
`!= "xyes"` instead of `= "xyes"`. -/
theorem configure_defines_eval :
    ndebugDefined none = true ∧
    ndebugDefined (some "yes") = false ∧
    verboseXmlErrorsDefined none = true ∧
    verboseXmlErrorsDefined (some "yes") = false := by decide

end Configure

namespace Zlib

/-- C1 (counterexample): at their default window-bits arguments the two
oneShot entry points are not inverse. `Deflater::oneShot` defaults to
`MAX_WBITS` (zlib container) while `Inflater::oneShot` defaults to
`MAX_WBITS | 16` (gzip-only decoding), so decompressing the compressed
one-byte vector [0] fails with a data error instead of returning [0]. -/
theorem deflate_inflate_default_mismatch :
    ¬ ((Deflater.oneShot [0] Deflater.oneShotDefaultWBits).bind
        (fun c => Inflater.oneShot c Inflater.oneShotDefaultWBits) =
      some [0]) := by decide

/-- C1 (amended): with the gzip container selected on both sides — deflating
at window-bits `MAX_WBITS | 16`, which matches the inflater's default —
decompression inverts compression for every byte vector X. The original
claim fails only because the deflater's default window-bits selects the
zlib container while the inflater's default accepts gzip alone. -/
theorem deflate_inflate_gzip_roundTrip (input : List Nat) :
    (Deflater.oneShot input Inflater.oneShotDefaultWBits).bind
      (fun c => Inflater.oneShot c Inflater.oneShotDefaultWBits) =
      some input := by
  have h1 : deflateFormat Inflater.oneShotDefaultWBits = some Format.gzipFmt := by
    decide
  have h2 : inflateAccepts Inflater.oneShotDefaultWBits Format.gzipFmt = true := by
    decide
  simp [Deflater.oneShot, Inflater.oneShot, h1, h2]

/-- C2: the deallocation callback does not return the allocated region with
its full length. At items=1, size=16, with an 8-byte std::size_t and an
allocation base of 1000, allocFunc obtains the 24-byte region
[1000, 1024) and hands 1008 to zlib; freeFunc then deallocates starting at
1008 — 8 bytes past the region base, because it does not step back over the
stored leading word — with a length read from the first word of zlib's own
data, and even the word allocFunc stored (16, the `size` argument) differs
from the region's length (24), so the deallocation never covers the
allocated region and its bytes are not all zeroed on release. -/
theorem zlib_freeFunc_wrong_region (w : Nat) :
    ∃ a, allocFunc (some 1000) 1 16 = some a ∧
      (freeFunc a.ret w).1 ≠ a.regionBase ∧
      a.storedWord ≠ a.regionLen ∧
      (freeFunc a.ret a.storedWord).2 ≠ a.regionLen := by
  refine ⟨{ regionBase := 1000, regionLen := 24, storedWord := 16, ret := 1008 },
    by decide, ?_, by decide, by decide⟩
  exact (by decide : (1008 : Nat) ≠ 1000)

/-- C10: the allocation callback turns a `SafeMemoryManager::allocate`
failure — `std::bad_alloc`, the only exception it raises per the spec —
into the null return that zlib reports as a memory error, and on success
hands zlib a pointer into the freshly allocated region. `items * size` is
the byte count of the request zlib makes, computed in 32-bit arithmetic
and positive for every request zlib issues. -/
theorem zlib_allocFunc_no_exception (items size base : Nat)
    (hpos : 0 < items * size % 2 ^ 32) :
    allocFunc none items size = none ∧
    ∃ a, allocFunc (some base) items size = some a ∧
      a.regionBase = base ∧ a.regionBase ≤ a.ret ∧
      a.ret < a.regionBase + a.regionLen := by
  refine ⟨rfl, _, rfl, rfl, Nat.le_add_right _ _, ?_⟩
  simp only [allocFunc, sizeofSizeT]
  omega

/-- Witness for C10 at items=1, size=16, base=1000. -/
theorem zlib_allocFunc_no_exception_witness :
    allocFunc none 1 16 = none ∧
    ∃ a, allocFunc (some 1000) 1 16 = some a ∧
      a.regionBase = 1000 ∧ a.regionBase ≤ a.ret ∧
      a.ret < a.regionBase + a.regionLen :=
  zlib_allocFunc_no_exception 1 16 1000 (by decide)

end Zlib

namespace OSSL

/-- C5: `OSSL::rand(data, size)` fills exactly `size` bytes of the
destination with the primitive's random bytes and raises an exception if
and only if `RAND_bytes` returns a value other than 1; on success it
returns normally and the destination beyond the first `size` bytes is
unchanged. -/
theorem rand_spec (p : RandPrim) (dest : List Nat) (size : Nat)
    (h : size ≤ dest.length) :
    (rand p dest size = Except.error () ↔ p.ret ≠ 1) ∧
    (p.ret = 1 →
      rand p dest size =
        Except.ok ((List.range size).map p.byte ++ dest.drop size) ∧
      ((List.range size).map p.byte ++ dest.drop size).length = dest.length ∧
      ((List.range size).map p.byte ++ dest.drop size).take size =
        (List.range size).map p.byte ∧
      ((List.range size).map p.byte ++ dest.drop size).drop size =
        dest.drop size) := by
  have hlen : ((List.range size).map p.byte).length = size := by simp
  constructor
  · by_cases hr : p.ret = 1 <;> simp [rand, hr]
  · intro hr
    refine ⟨by simp [rand, hr], ?_, List.take_left' hlen, List.drop_left' hlen⟩
    rw [List.length_append, hlen, List.length_drop]
    omega

/-- Witness for C5: a succeeding primitive filling one byte of a two-byte
destination. -/
theorem rand_spec_witness :
    (rand ⟨1, fun _ => 0⟩ [5, 6] 1 = Except.error () ↔ (1 : Int) ≠ 1) ∧
    ((1 : Int) = 1 →
      rand ⟨1, fun _ => 0⟩ [5, 6] 1 =
        Except.ok ((List.range 1).map (fun _ => 0) ++ [5, 6].drop 1) ∧
      ((List.range 1).map (fun _ => 0) ++ [5, 6].drop 1).length = [5, 6].length ∧
      ((List.range 1).map (fun _ => 0) ++ [5, 6].drop 1).take 1 =
        (List.range 1).map (fun _ => 0) ∧
      ((List.range 1).map (fun _ => 0) ++ [5, 6].drop 1).drop 1 = [5, 6].drop 1) :=
  rand_spec ⟨1, fun _ => 0⟩ [5, 6] 1 (by decide)

/-- C6: on a ready digest, init, update and final raise an exception exactly
when the underlying OpenSSL primitive reports failure; final returns the
number of bytes written, which (by the OpenSSL contract on `p.written`) is
at most size(); after a successful final the digest is finalized, no
further update is permitted, and a successful re-init makes it ready
again. -/
theorem digest_spec (d : Digest) (p q r : DigestPrim)
    (hready : d.state = DigestState.ready) (hw : p.written ≤ d.mdSize)
    (hq : q.ok = true) :
    (d.init p = Except.error () ↔ p.ok = false) ∧
    (d.update p = Except.ok d ↔ p.ok = true) ∧
    (d.update p = Except.error () ↔ p.ok = false) ∧
    (d.final p = Except.error () ↔ p.ok = false) ∧
    (p.ok = true →
      d.final p =
        Except.ok (p.written, { d with state := DigestState.finalized }) ∧
      p.written ≤ d.mdSize ∧
      Digest.update { d with state := DigestState.finalized } r =
        Except.error () ∧
      Digest.init { d with state := DigestState.finalized } q =
        Except.ok { d with state := DigestState.ready }) := by
  cases hp : p.ok <;>
    simp [Digest.init, Digest.update, Digest.final, hready, hp, hq, hw]

/-- Witness for C6 with a 32-byte digest and succeeding primitives. -/
theorem digest_spec_witness :
    (Digest.init ⟨32, DigestState.ready⟩ ⟨true, 32⟩ = Except.error () ↔
      true = false) ∧
    (Digest.update ⟨32, DigestState.ready⟩ ⟨true, 32⟩ =
      Except.ok ⟨32, DigestState.ready⟩ ↔ true = true) ∧
    (Digest.update ⟨32, DigestState.ready⟩ ⟨true, 32⟩ = Except.error () ↔
      true = false) ∧
    (Digest.final ⟨32, DigestState.ready⟩ ⟨true, 32⟩ = Except.error () ↔
      true = false) ∧
    (true = true →
      Digest.final ⟨32, DigestState.ready⟩ ⟨true, 32⟩ =
        Except.ok (32, ⟨32, DigestState.finalized⟩) ∧
      32 ≤ 32 ∧
      Digest.update ⟨32, DigestState.finalized⟩ ⟨true, 5⟩ = Except.error () ∧
      Digest.init ⟨32, DigestState.finalized⟩ ⟨true, 0⟩ =
        Except.ok ⟨32, DigestState.ready⟩) :=
  digest_spec ⟨32, DigestState.ready⟩ ⟨true, 32⟩ ⟨true, 0⟩ ⟨true, 5⟩ rfl
    (by decide) rfl

/-- C7: under the documented preconditions — an output buffer of at least
inl + block_size() bytes for a decrypting context and at least
inl + block_size() - 1 bytes for an encrypting context — update writes only
within the output buffer and returns the number of bytes written, the
context stays well formed, and final writes at most block_size() bytes. -/
theorem evpCipher_bounds (c : EvpCipher) (inl outLen padLen : Nat)
    (hwf : c.WF)
    (hout : (if c.encrypting then inl + c.blockSize - 1 else inl + c.blockSize) ≤
      outLen) :
    (c.update inl).1 ≤ outLen ∧ (c.update inl).2.WF ∧
    c.final padLen ≤ c.blockSize := by
  obtain ⟨hbs, hp⟩ := hwf
  by_cases he : c.encrypting
  · simp only [if_pos he] at hp hout
    have h1 : (c.pending + inl) % c.blockSize < c.blockSize :=
      Nat.mod_lt _ hbs
    have h2 : (c.pending + inl) % c.blockSize ≤ c.pending + inl :=
      Nat.mod_le _ _
    refine ⟨?_, ?_, ?_⟩ <;>
      simp [EvpCipher.update, EvpCipher.final, EvpCipher.WF, he] <;>
      omega
  · simp only [if_neg he] at hp hout
    by_cases ht : c.pending + inl = 0
    · refine ⟨?_, ?_, ?_⟩ <;>
        simp [EvpCipher.update, EvpCipher.final, EvpCipher.WF, he, ht] <;>
        omega
    · have h1 : (c.pending + inl - 1) % c.blockSize < c.blockSize :=
        Nat.mod_lt _ hbs
      refine ⟨?_, ?_, ?_⟩ <;>
        simp [EvpCipher.update, EvpCipher.final, EvpCipher.WF, he, ht] <;>
        omega

/-- Witness for C7: an encrypting AES-sized context (block size 16) with an
empty internal buffer, 5 input bytes and a 20-byte output buffer. -/
theorem evpCipher_bounds_witness :
    (EvpCipher.update ⟨16, true, 0⟩ 5).1 ≤ 20 ∧
    (EvpCipher.update ⟨16, true, 0⟩ 5).2.WF ∧
    EvpCipher.final ⟨16, true, 0⟩ 1 ≤ 16 :=
  evpCipher_bounds ⟨16, true, 0⟩ 5 20 1 ⟨by simp, by simp⟩ (by simp)

end OSSL

namespace OSSL

/-- Monotonicity of the ownership bound in the fresh counter. -/
theorem objsInv_mono (f : Nat → Option Nat) (n : Nat) (h : objsInv f n) :
    objsInv f (n + 1) :=
  ⟨h.1, fun a c ha => Nat.lt_succ_of_lt (h.2 a c ha)⟩

/-- Nulling one slot preserves unique ownership. -/
theorem objsInv_null (f : Nat → Option Nat) (n i : Nat) (h : objsInv f n) :
    objsInv (fun k => if k = i then none else f k) n := by
  obtain ⟨hinj, hb⟩ := h
  refine ⟨fun a b c ha hb' => ?_, fun a c ha => ?_⟩
  · by_cases h1 : a = i
    · simp [h1] at ha
    · by_cases h2 : b = i
      · simp [h2] at hb'
      · simp only [if_neg h1] at ha
        simp only [if_neg h2] at hb'
        exact hinj a b c ha hb'
  · by_cases h1 : a = i
    · simp [h1] at ha
    · simp only [if_neg h1] at ha
      exact hb a c ha

/-- Placing a fresh context into one slot preserves unique ownership. -/
theorem objsInv_fresh (f : Nat → Option Nat) (n i : Nat) (h : objsInv f n) :
    objsInv (fun k => if k = i then some n else f k) (n + 1) := by
  obtain ⟨hinj, hb⟩ := h
  refine ⟨fun a b c ha hb' => ?_, fun a c ha => ?_⟩
  · by_cases h1 : a = i <;> by_cases h2 : b = i
    · exact h1.trans h2.symm
    · simp only [if_pos h1] at ha
      simp only [if_neg h2] at hb'
      cases ha
      exact absurd (hb b n hb') (Nat.lt_irrefl n)
    · simp only [if_neg h1] at ha
      simp only [if_pos h2] at hb'
      cases hb'
      exact absurd (hb a n ha) (Nat.lt_irrefl n)
    · simp only [if_neg h1] at ha
      simp only [if_neg h2] at hb'
      exact hinj a b c ha hb'
  · by_cases h1 : a = i
    · simp only [if_pos h1] at ha
      cases ha
      exact Nat.lt_succ_self n
    · simp only [if_neg h1] at ha
      exact Nat.lt_succ_of_lt (hb a c ha)

/-- Placing a fresh deep copy of a slot (or a null copy of an invalid slot)
into one slot preserves unique ownership. -/
theorem objsInv_freshCopy (f : Nat → Option Nat) (n i src : Nat)
    (h : objsInv f n) :
    objsInv
      (fun k => if k = i then (if (f src).isSome then some n else none)
        else f k) (n + 1) := by
  by_cases hs : (f src).isSome
  · simpa [hs] using objsInv_fresh f n i h
  · simpa [hs] using objsInv_mono _ n (objsInv_null f n i h)

/-- Moving a context from slot `src` into slot `dst` (nulling the source)
preserves unique ownership. -/
theorem objsInv_move (f : Nat → Option Nat) (n src dst : Nat)
    (h : objsInv f n) :
    objsInv (fun k => if k = src then none else if k = dst then f src else f k)
      n := by
  obtain ⟨hinj, hb⟩ := h
  refine ⟨fun a b c ha hb' => ?_, fun a c ha => ?_⟩
  · by_cases h1 : a = src
    · simp [h1] at ha
    · by_cases h2 : b = src
      · simp [h2] at hb'
      · simp only [if_neg h1] at ha
        simp only [if_neg h2] at hb'
        by_cases h3 : a = dst <;> by_cases h4 : b = dst
        · exact h3.trans h4.symm
        · simp only [if_pos h3] at ha
          simp only [if_neg h4] at hb'
          exact absurd (hinj src b c ha hb').symm h2
        · simp only [if_neg h3] at ha
          simp only [if_pos h4] at hb'
          exact absurd (hinj a src c ha hb') h1
        · simp only [if_neg h3] at ha
          simp only [if_neg h4] at hb'
          exact hinj a b c ha hb'
  · by_cases h1 : a = src
    · simp [h1] at ha
    · simp only [if_neg h1] at ha
      by_cases h3 : a = dst
      · simp only [if_pos h3] at ha
        exact hb src c ha
      · simp only [if_neg h3] at ha
        exact hb a c ha

/-- Every single wrapper operation preserves unique ownership. -/
theorem ownStep_inv (s : OwnState) (op : OwnOp) (h : OwnInv s) :
    OwnInv (ownStep s op) := by
  cases op with
  | defaultCtor => exact objsInv_null s.objs s.next s.used h
  | validCtor => exact objsInv_fresh s.objs s.next s.used h
  | moveCtor src => exact objsInv_move s.objs s.next src s.used h
  | deepCopyCtor src => exact objsInv_freshCopy s.objs s.next s.used src h
  | moveAssign dst src =>
    by_cases hds : dst = src
    · simpa [ownStep, hds] using h
    · simpa [ownStep, hds] using objsInv_move s.objs s.next src dst h
  | deepCopyAssign dst src =>
    exact objsInv_freshCopy s.objs s.next dst src h
  | destroy i => exact objsInv_null s.objs s.next i h

/-- Unique ownership is preserved along every run of wrapper operations. -/
theorem ownRun_inv (ops : List OwnOp) (s : OwnState) (h : OwnInv s) :
    OwnInv (ownRun s ops) := by
  induction ops generalizing s with
  | nil => exact h
  | cons op rest ih => exact ih (ownStep s op) (ownStep_inv s op h)

/-- C9: the OSSL wrapper objects own their contexts uniquely: along every
sequence of constructions, copies, moves, assignments and destructions no
two valid wrapper objects ever refer to the same context (EvpCipher
copying is deleted, Digest copying deep-copies into a fresh context);
move construction and move assignment leave the moved-from object with a
null context; a default-constructed object holds a null context and its
explicit bool conversion yields false. -/
theorem ossl_unique_ownership (ops : List OwnOp) (s : OwnState) (i j : Nat)
    (h : OwnInv s) (hij : i ≠ j) :
    OwnInv (ownRun s ops) ∧
    (ownStep s (OwnOp.moveCtor i)).objs i = none ∧
    (ownStep s (OwnOp.moveAssign j i)).objs i = none ∧
    (ownStep s OwnOp.defaultCtor).objs s.used = none ∧
    ctxToBool ((ownStep s OwnOp.defaultCtor).objs s.used) = false := by
  refine ⟨ownRun_inv ops s h, ?_, ?_, ?_, ?_⟩
  · simp [ownStep]
  · simp only [ownStep]
    rw [if_neg (Ne.symm hij)]
    simp
  · simp [ownStep]
  · simp [ownStep, ctxToBool]

/-- Witness for C9: the empty heap, one fresh construction, and slots 0 and
1. -/
theorem ossl_unique_ownership_witness :
    OwnInv (ownRun { objs := fun _ => none, used := 0, next := 0 }
      [OwnOp.validCtor]) ∧
    (ownStep { objs := fun _ => none, used := 0, next := 0 }
      (OwnOp.moveCtor 0)).objs 0 = none ∧
    (ownStep { objs := fun _ => none, used := 0, next := 0 }
      (OwnOp.moveAssign 1 0)).objs 0 = none ∧
    (ownStep { objs := fun _ => none, used := 0, next := 0 }
      OwnOp.defaultCtor).objs 0 = none ∧
    ctxToBool ((ownStep { objs := fun _ => none, used := 0, next := 0 }
      OwnOp.defaultCtor).objs 0) = false :=
  ossl_unique_ownership [OwnOp.validCtor]
    { objs := fun _ => none, used := 0, next := 0 } 0 1
    ⟨fun _ _ _ ha => absurd ha (by simp), fun _ _ ha => absurd ha (by simp)⟩
    (by decide)

end OSSL

namespace XML

/-- C8: `XML::Exception::throwLastError` throws `std::bad_alloc` exactly
when the last libxml2 error exists and has code `XML_ERR_NO_MEMORY`; when
no last error exists it throws an `XML::Exception` carrying an empty
(zeroed) Error; in every other case it throws an `XML::Exception` carrying
a copy of the last error. The model's totality reflects that the function
never returns normally. -/
theorem throwLastError_spec (lastError : Option Error) (e : Error) :
    (Exception.throwLastError lastError = Thrown.badAlloc ↔
      ∃ x, lastError = some x ∧ x.code = XML_ERR_NO_MEMORY) ∧
    (Exception.throwLastError none = Thrown.xmlException Error.empty) ∧
    (e.code ≠ XML_ERR_NO_MEMORY →
      Exception.throwLastError (some e) = Thrown.xmlException e) ∧
    (e.code = XML_ERR_NO_MEMORY →
      Exception.throwLastError (some e) = Thrown.badAlloc) := by
  refine ⟨?_, rfl, ?_, ?_⟩
  · cases lastError with
    | none => simp [Exception.throwLastError]
    | some y =>
      by_cases hc : y.code = XML_ERR_NO_MEMORY
      · simp [Exception.throwLastError, hc]
      · simp [Exception.throwLastError, hc]
  · intro hne
    simp [Exception.throwLastError, hne]
  · intro heq
    simp [Exception.throwLastError, heq]

/-- Witness for C8 at the out-of-memory error code 2 and the ordinary error
code 5. -/
theorem throwLastError_spec_witness :
    (Exception.throwLastError (some { code := 2, message := "" }) =
        Thrown.badAlloc ↔
      ∃ x, (some { code := 2, message := "" } : Option Error) = some x ∧
        x.code = XML_ERR_NO_MEMORY) ∧
    (Exception.throwLastError none = Thrown.xmlException Error.empty) ∧
    (({ code := 5, message := "" } : Error).code ≠ XML_ERR_NO_MEMORY →
      Exception.throwLastError (some { code := 5, message := "" }) =
        Thrown.xmlException { code := 5, message := "" }) ∧
    (({ code := 5, message := "" } : Error).code = XML_ERR_NO_MEMORY →
      Exception.throwLastError (some { code := 5, message := "" }) =
        Thrown.badAlloc) := by
  have h := throwLastError_spec (some { code := 2, message := "" })
    { code := 5, message := "" }
  have h2 := throwLastError_spec (some { code := 5, message := "" })
    { code := 5, message := "" }
  exact ⟨h.1, h.2.1, h2.2.2.1, h2.2.2.2⟩

end XML
